import Mathlib

/-!
Verification of the Symposium editor-bridge (vscodelm), registry resolution
and component-source serialisation, as shallow Lean embeddings of the Rust
sources under `src/`.

The embedding convention: request ids are `Nat`; JSON values are the `Json`
inductive below; per-session actor handles, channels and request contexts are
modelled by the data they carry (the streaming request id) and by explicit
outcome values describing the messages the code sends.
-/

/-! ## JSON values

A model of `serde_json::Value` restricted to the shapes produced and consumed
by the code under verification.  Objects are field lists in the order serde
writes them. -/

inductive Json where
  | null : Json
  | bool (b : Bool) : Json
  | str (s : String) : Json
  | num (n : Int) : Json
  | arr (elems : List Json) : Json
  | obj (fields : List (String × Json)) : Json
  deriving Repr

mutual

def Json.decEq : (a b : Json) → Decidable (a = b)
  | .null, .null => isTrue rfl
  | .bool a, .bool b =>
    if h : a = b then isTrue (by rw [h]) else isFalse (fun hh => by cases hh; exact h rfl)
  | .str a, .str b =>
    if h : a = b then isTrue (by rw [h]) else isFalse (fun hh => by cases hh; exact h rfl)
  | .num a, .num b =>
    if h : a = b then isTrue (by rw [h]) else isFalse (fun hh => by cases hh; exact h rfl)
  | .arr xs, .arr ys =>
    match Json.decEqList xs ys with
    | isTrue h => isTrue (by rw [h])
    | isFalse h => isFalse (fun hh => by cases hh; exact h rfl)
  | .obj xs, .obj ys =>
    match Json.decEqFields xs ys with
    | isTrue h => isTrue (by rw [h])
    | isFalse h => isFalse (fun hh => by cases hh; exact h rfl)
  | .null, .bool _ | .null, .str _ | .null, .num _ | .null, .arr _ | .null, .obj _ =>
    isFalse (by intro h; cases h)
  | .bool _, .null | .bool _, .str _ | .bool _, .num _ | .bool _, .arr _ | .bool _, .obj _ =>
    isFalse (by intro h; cases h)
  | .str _, .null | .str _, .bool _ | .str _, .num _ | .str _, .arr _ | .str _, .obj _ =>
    isFalse (by intro h; cases h)
  | .num _, .null | .num _, .bool _ | .num _, .str _ | .num _, .arr _ | .num _, .obj _ =>
    isFalse (by intro h; cases h)
  | .arr _, .null | .arr _, .bool _ | .arr _, .str _ | .arr _, .num _ | .arr _, .obj _ =>
    isFalse (by intro h; cases h)
  | .obj _, .null | .obj _, .bool _ | .obj _, .str _ | .obj _, .num _ | .obj _, .arr _ =>
    isFalse (by intro h; cases h)

def Json.decEqList : (xs ys : List Json) → Decidable (xs = ys)
  | [], [] => isTrue rfl
  | [], _ :: _ => isFalse (by intro h; cases h)
  | _ :: _, [] => isFalse (by intro h; cases h)
  | x :: xs, y :: ys =>
    match Json.decEq x y, Json.decEqList xs ys with
    | isTrue h1, isTrue h2 => isTrue (by rw [h1, h2])
    | isFalse h1, _ => isFalse (fun hh => by cases hh; exact h1 rfl)
    | _, isFalse h2 => isFalse (fun hh => by cases hh; exact h2 rfl)

def Json.decEqFields : (xs ys : List (String × Json)) → Decidable (xs = ys)
  | [], [] => isTrue rfl
  | [], _ :: _ => isFalse (by intro h; cases h)
  | _ :: _, [] => isFalse (by intro h; cases h)
  | (k1, v1) :: xs, (k2, v2) :: ys =>
    if h1 : k1 = k2 then
      match Json.decEq v1 v2, Json.decEqFields xs ys with
      | isTrue h2, isTrue h3 => isTrue (by rw [h1, h2, h3])
      | isFalse h2, _ => isFalse (fun hh => by cases hh; exact h2 rfl)
      | _, isFalse h3 => isFalse (fun hh => by cases hh; exact h3 rfl)
    else isFalse (fun hh => by cases hh; exact h1 rfl)

end

instance : DecidableEq Json := Json.decEq

/-! ## vscodelm message model

From `src/src/symposium-acp-agent/src/vscodelm/mod.rs` (`ContentPart`,
`Message`, `Message::text`).  The `ToolCall` variant and its fields are taken
from the construction site in `session_actor.rs`.  The `ToolResult` variant is
modelled from the spec: the snapshot's `mod.rs` predates the tool-call bridge
and only the uses of the variant (`has_just_tool_result`) are visible. -/

/-- Role string of user messages (`ROLE_USER` in the source). -/
def ROLE_USER : String := "user"

/-- Role string of assistant messages (`ROLE_ASSISTANT` in the source). -/
def ROLE_ASSISTANT : String := "assistant"

/-- Name of the bridge's internal tool. Modelled from the spec: the constant
`SYMPOSIUM_AGENT_ACTION` is imported by `session_actor.rs` but its defining
module version is not in the snapshot. -/
def SYMPOSIUM_AGENT_ACTION : String := "symposium-agent-action"

/-- A content part of a chat message (`ContentPart`). -/
inductive ContentPart where
  | Text (value : String)
  | ToolCall (tool_call_id : String) (tool_name : String) (parameters : Json)
  | ToolResult (tool_call_id : String) (output : Json)
  deriving DecidableEq, Repr

/-- A chat message (`Message { role, content }`). -/
structure Message where
  role : String
  content : List ContentPart
  deriving DecidableEq, Repr

/-- Rust `Message::text`: concatenation of the text parts, other parts skipped. -/
def Message.text (m : Message) : String :=
  String.join (m.content.filterMap (fun part =>
    match part with
    | ContentPart.Text value => some value
    | _ => none))

/-! ## History actor state

From `src/src/symposium-acp-agent/src/vscodelm/history_actor.rs`.
`SessionData` keeps the committed and provisional history and the streaming
state; the actor handle and the stashed responder are modelled by the
streaming request id alone. -/

/-- Per-session history data (`SessionData`). -/
structure SessionData where
  committed : List Message
  provisional_messages : List Message
  streaming : Option Nat
  deriving DecidableEq, Repr

/-- Rust `SessionData::new`. -/
def SessionData.new : SessionData :=
  { committed := [], provisional_messages := [], streaming := none }

/-- Result of matching incoming messages against session history
(`HistoryMatch`). -/
structure HistoryMatch where
  new_messages : List Message
  canceled : Bool
  deriving DecidableEq, Repr

/-- Rust `SessionData::match_history`. -/
def SessionData.match_history (s : SessionData) (incoming : List Message) :
    Option HistoryMatch :=
  let committed_len := s.committed.length
  if incoming.length < committed_len then
    none
  else if incoming.take committed_len ≠ s.committed then
    none
  else
    let after_committed := incoming.drop committed_len
    if ¬ (s.provisional_messages <+: after_committed) then
      some { new_messages := after_committed, canceled := true }
    else
      some { new_messages := after_committed.drop s.provisional_messages.length,
             canceled := false }

/-- Rust `SessionData::record_part`. -/
def SessionData.record_part (s : SessionData) (part : ContentPart) : SessionData :=
  match s.provisional_messages.getLast? with
  | some msg =>
    if msg.role = ROLE_ASSISTANT then
      { s with provisional_messages :=
          s.provisional_messages.dropLast ++ [{ msg with content := msg.content ++ [part] }] }
    else
      { s with provisional_messages :=
          s.provisional_messages ++ [{ role := ROLE_ASSISTANT, content := [part] }] }
  | none =>
    { s with provisional_messages :=
        s.provisional_messages ++ [{ role := ROLE_ASSISTANT, content := [part] }] }

/-- Rust `SessionData::commit_provisional`. -/
def SessionData.commit_provisional (s : SessionData) : SessionData :=
  { s with committed := s.committed ++ s.provisional_messages,
           provisional_messages := [] }

/-- Rust `SessionData::discard_provisional`. -/
def SessionData.discard_provisional (s : SessionData) : SessionData :=
  { s with provisional_messages := [] }

/-- Rust `SessionData::start_provisional`. -/
def SessionData.start_provisional (s : SessionData) (messages : List Message) :
    SessionData :=
  { s with provisional_messages := messages }

/-! ## History actor request handling

`HistoryActor::handle_vscode_request` selects the best match with
`filter_map(match_history).max_by_key(|(_, m)| !m.canceled)`.  Rust's
`max_by_key` returns the LAST element among those whose key is maximal, so the
fold below replaces the held best whenever the new key is at least as large. -/

/-- Key used by the `max_by_key` call: 1 for a non-cancelled match, 0 for a
cancelled one (Rust `!m.canceled` with `false < true`). -/
def matchKey (m : HistoryMatch) : Nat :=
  if m.canceled then 0 else 1

/-- One comparison step of `max_by_key`: keep the later element on ties. -/
def max_by_key_step (best : Option (Nat × HistoryMatch)) (x : Nat × HistoryMatch) :
    Option (Nat × HistoryMatch) :=
  match best with
  | none => some x
  | some b => if matchKey b.2 ≤ matchKey x.2 then some x else some b

/-- Rust `Iterator::max_by_key` over the candidate list (last maximal wins). -/
def max_by_key_last (l : List (Nat × HistoryMatch)) : Option (Nat × HistoryMatch) :=
  l.foldl max_by_key_step none

/-- What `handle_vscode_request` does after choosing or creating a session. -/
inductive HandleOutcome where
  | respondEmpty
  | dispatch (new_messages : List Message) (canceled : Bool)
  deriving DecidableEq, Repr

/-- Result of one `handle_vscode_request` step: the updated session list, the
index of the chosen (or created) session, whether it was created, and the
outcome (immediate empty response versus messages dispatched to the session
actor). -/
structure HandleResult where
  sessions : List SessionData
  session_idx : Nat
  created : Bool
  outcome : HandleOutcome
  deriving DecidableEq, Repr

/-- Second half of `handle_vscode_request` (from `let session_data = ...`):
discard on cancellation, the empty-new-messages early response, commit,
start of the new provisional exchange, installation of streaming state, and
the dispatch to the session actor. -/
def finish_vscode_request (sessions : List SessionData) (idx : Nat)
    (history_match : HistoryMatch) (request_id : Nat) (created : Bool) :
    HandleResult :=
  let s0 := sessions.getD idx SessionData.new
  let s1 := if history_match.canceled then s0.discard_provisional else s0
  if history_match.new_messages.isEmpty then
    { sessions := sessions.set idx s1, session_idx := idx, created := created,
      outcome := HandleOutcome.respondEmpty }
  else
    let s2 := if history_match.canceled then s1 else s1.commit_provisional
    let s3 := s2.start_provisional history_match.new_messages
    let s4 := { s3 with streaming := some request_id }
    { sessions := sessions.set idx s4, session_idx := idx, created := created,
      outcome := HandleOutcome.dispatch history_match.new_messages history_match.canceled }

/-- The candidate list built by `handle_vscode_request`:
`filter_map` of `match_history` over the enumerated sessions. -/
def request_candidates (sessions : List SessionData) (messages : List Message) :
    List (Nat × HistoryMatch) :=
  sessions.enum.filterMap
    (fun p => (p.2.match_history messages).map (fun m => (p.1, m)))

/-- Rust `HistoryActor::handle_vscode_request`. -/
def handle_vscode_request (sessions : List SessionData) (messages : List Message)
    (request_id : Nat) : HandleResult :=
  match max_by_key_last (request_candidates sessions messages) with
  | some (idx, history_match) =>
      finish_vscode_request sessions idx history_match request_id false
  | none =>
      let sessions2 := sessions ++ [SessionData.new]
      finish_vscode_request sessions2 (sessions2.length - 1)
        { new_messages := messages, canceled := false } request_id true

/-- Rust `HistoryActor::handle_vscode_cancel`: find the session streaming the
request id, clear its streaming state and signal its actor to cancel.  The
returned flag records whether a cancel signal was delivered. -/
def handle_vscode_cancel (sessions : List SessionData) (request_id : Nat) :
    List SessionData × Bool :=
  match sessions.findIdx? (fun s => s.streaming == some request_id) with
  | some i =>
      let s := sessions.getD i SessionData.new
      (sessions.set i { s with streaming := none }, true)
  | none => (sessions, false)

/-- Rust `HistoryActor::handle_session_message` on `SessionToHistoryMessage::Part`:
when the session is streaming, record the part into provisional history and
forward a `ResponsePartNotification` tagged with the streaming request id
(returned here); otherwise drop the part with a warning. -/
def handle_session_part (sessions : List SessionData) (idx : Nat)
    (part : ContentPart) : List SessionData × Option Nat :=
  match sessions.get? idx with
  | none => (sessions, none)
  | some s =>
    match s.streaming with
    | none => (sessions, none)
    | some rid => (sessions.set idx (s.record_part part), some rid)

/-- Rust `HistoryActor::handle_session_message` on `SessionToHistoryMessage::Complete`:
when the session is streaming, send `ResponseCompleteNotification` for the
streaming request id (returned here), clear the streaming state and respond to
the stashed request with the empty `ProvideResponseResponse`. -/
def handle_session_complete (sessions : List SessionData) (idx : Nat) :
    List SessionData × Option Nat :=
  match sessions.get? idx with
  | none => (sessions, none)
  | some s =>
    match s.streaming with
    | none => (sessions, none)
    | some rid => (sessions.set idx { s with streaming := none }, some rid)

/-! ## Session actor

From `src/src/symposium-acp-agent/src/vscodelm/session_actor.rs`.  The turn
loop of `run_with_cx` races `session.read_update()` against the request's
cancellation channel; the race's resolution is reified as the ordered list of
events the loop observes. -/

/-- A request dispatched from the history actor to a session actor
(`SessionRequest`; the per-request channels of `RequestState` are modelled by
the flags that travel with them). -/
structure SessionRequest where
  messages : List Message
  canceled : Bool
  has_internal_tool : Bool
  deriving DecidableEq, Repr

/-- The prompt text built at the top of the `run_with_cx` turn loop: the texts
of the user-role messages joined with a newline separator. -/
def prompt_text (messages : List Message) : String :=
  String.intercalate "\n"
    ((messages.filter (fun m => m.role = ROLE_USER)).map Message.text)

/-- One event observed by the turn loop of `run_with_cx`: an agent session
message, the stop reason, or the cancellation channel winning the race. -/
inductive AgentTurnEvent where
  | chunk (text : String)
  | stopReason
  | otherMessage
  | cancelFired
  deriving DecidableEq, Repr

/-- Result of the turn loop: whether the turn was cancelled, the non-empty
text parts forwarded to the history actor, whether `session/cancel`
(`CancelNotification`) was sent to the agent, and whether `Complete` was sent
to the history actor. -/
structure TurnLoopResult where
  canceled : Bool
  partsSent : List String
  sentSessionCancel : Bool
  sentCompleteToHistory : Bool
  deriving DecidableEq, Repr

/-- The read loop of `run_with_cx` (lines 219-265) together with the code that
follows it: `cancelFired` breaks with `canceled = true` and sends
`session/cancel` to the agent; `stopReason` breaks with `canceled = false` and
sends `Complete` to the history actor; chunks with non-empty text are
forwarded as parts; other messages are ignored.  `none` models an event
stream that ends without either terminator (the code would keep awaiting). -/
def run_turn_loop : List AgentTurnEvent → List String → Option TurnLoopResult
  | [], _ => none
  | AgentTurnEvent.cancelFired :: _, parts =>
      some { canceled := true, partsSent := parts,
             sentSessionCancel := true, sentCompleteToHistory := false }
  | AgentTurnEvent.stopReason :: _, parts =>
      some { canceled := false, partsSent := parts,
             sentSessionCancel := false, sentCompleteToHistory := true }
  | AgentTurnEvent.chunk t :: rest, parts =>
      run_turn_loop rest (if t = "" then parts else parts ++ [t])
  | AgentTurnEvent.otherMessage :: rest, parts =>
      run_turn_loop rest parts

/-- How a turn starts in `run_with_cx` (lines 201-216): an empty prompt text
sends `Complete` to the history actor and skips the agent entirely; otherwise
the prompt is sent to the agent and the read loop runs. -/
inductive TurnOutcome where
  | completedWithoutAgent
  | promptedAgent (prompt : String) (loop : Option TurnLoopResult)
  deriving DecidableEq, Repr

/-- One iteration of the `while let` body of `run_with_cx` for a request's
message list: build the prompt text, skip the turn when it is empty, else
prompt the agent and run the read loop over the observed events. -/
def session_turn (messages : List Message) (events : List AgentTurnEvent) :
    TurnOutcome :=
  let t := prompt_text messages
  if t = "" then TurnOutcome.completedWithoutAgent
  else TurnOutcome.promptedAgent t (run_turn_loop events [])

/-! ## Permission bridging

From `SessionActor::process_session_message` (lines 302-408).  The ACP option
kinds come from the external `sacp::schema` crate. -/

/-- Rust `sacp::schema::PermissionOptionKind`. -/
inductive PermissionOptionKind where
  | allowOnce
  | allowAlways
  | rejectOnce
  | rejectAlways
  deriving DecidableEq, Repr

/-- A permission option offered by the agent (`option_id` plus kind). -/
structure PermissionOption where
  option_id : String
  kind : PermissionOptionKind
  deriving DecidableEq, Repr

/-- Rust `sacp::schema::RequestPermissionOutcome` as answered by the session actor. -/
inductive RequestPermissionOutcome where
  | cancelled
  | selected (option_id : String)
  deriving DecidableEq, Repr

/-- Modelled from the spec: `Message::has_just_tool_result` is referenced by
`session_actor.rs` but defined in a module version missing from the snapshot.
Per the spec, the check is that the message is just a tool-result for the
given tool-call id. -/
def Message.has_just_tool_result (m : Message) (tool_call_id : String) : Bool :=
  match m.content with
  | [ContentPart.ToolResult id _] => id = tool_call_id
  | _ => false

/-- The decision taken by the permission branch of `process_session_message`:
auto-deny without the internal tool; deny when the mailbox closed; deny when
the next request is a cancellation match or its first new message is not the
matching tool-result; otherwise answer with the first `AllowOnce` option, or
deny when no such option is offered.  `none` models the panic of
`next_request.messages[0]` on an empty message list. -/
def permission_decision (has_internal_tool : Bool)
    (options : List PermissionOption) (tool_call_id : String)
    (next_request : Option SessionRequest) :
    Option RequestPermissionOutcome :=
  if !has_internal_tool then
    some RequestPermissionOutcome.cancelled
  else
    match next_request with
    | none => some RequestPermissionOutcome.cancelled
    | some next =>
      match next.messages.head? with
      | none => none
      | some first =>
        if next.canceled || !(first.has_just_tool_result tool_call_id) then
          some RequestPermissionOutcome.cancelled
        else
          match options.find? (fun o => o.kind == PermissionOptionKind.allowOnce) with
          | some o => some (RequestPermissionOutcome.selected o.option_id)
          | none => some RequestPermissionOutcome.cancelled

/-! ## Streaming response task

From `stream_response` in `src/src/symposium-acp-agent/src/vscodelm/mod.rs`:
the task races parts from the session actor against the cancellation channel
and reacts to each outcome. -/

/-- JSON-RPC error code for request cancellation (`ERROR_CODE_CANCELLED`). -/
def ERROR_CODE_CANCELLED : Int := -32800

/-- One outcome of the race inside `stream_response`. -/
inductive StreamOutcome where
  | part (text : String)
  | streamEnd
  | cancelled
  deriving DecidableEq, Repr

/-- The reaction of `stream_response` to one race outcome. -/
inductive StreamAction where
  | notifyPart (text : String)
  | completeAndRespond
  | respondWithError (code : Int)
  deriving DecidableEq, Repr

/-- The `match outcome` body of `stream_response` (lines 313-337). -/
def stream_response_step : StreamOutcome → StreamAction
  | StreamOutcome.part t => StreamAction.notifyPart t
  | StreamOutcome.streamEnd => StreamAction.completeAndRespond
  | StreamOutcome.cancelled => StreamAction.respondWithError ERROR_CODE_CANCELLED

/-- Modelled from the spec: the session actor that serves `stream_response`
(the variant with `send_prompt`/`reply_rx`) is not in the snapshot; per the
spec it must "drain the agent's output until it produces a stop reason".
Draining consumes updates up to and including the first stop reason. -/
def drain_until_stop : List AgentTurnEvent → List AgentTurnEvent
  | [] => []
  | AgentTurnEvent.stopReason :: _ => [AgentTurnEvent.stopReason]
  | e :: rest => e :: drain_until_stop rest

/-! ## Cargo distribution resolution

From `resolve_distribution` (cargo branch) and `install_cargo_crate` in
`src/src/symposium-acp-agent/src/registry.rs`. -/

/-- The binary-name resolution of the cargo branch of `resolve_distribution`
(lines 577-592): an explicit `binary` wins; otherwise exactly one queried
target is required. -/
def resolve_cargo_binary_name (binary : Option String) (bin_names : List String) :
    Except String String :=
  match binary with
  | some name => Except.ok name
  | none =>
    if bin_names.isEmpty then
      Except.error "crate has no binary targets"
    else if bin_names.length = 1 then
      Except.ok (bin_names.getD 0 "")
    else
      Except.error "crate has multiple binaries, please specify one explicitly"

/-- A side effect of the cargo resolution path. -/
inductive RegistryAction where
  | installCrate (crate_name : String) (version : String) (binary_name : String)
  deriving DecidableEq, Repr

/-- The cargo branch of `resolve_distribution` after the crates.io query:
resolve the binary name (failing without further action), then install only
when the binary is not already cached at the expected path. -/
def resolve_cargo (crate_name : String) (version : String)
    (binary : Option String) (bin_names : List String)
    (cached : String → Bool) :
    Except String String × List RegistryAction :=
  match resolve_cargo_binary_name binary bin_names with
  | Except.error e => (Except.error e, [])
  | Except.ok name =>
      if cached name then (Except.ok name, [])
      else (Except.ok name, [RegistryAction.installCrate crate_name version name])

/-! ## Component sources

From `src/src/symposium-recommendations/src/source.rs`.  `BTreeMap` fields
are modelled as their ordered entry lists.  The serialisation below follows
the serde derive semantics declared on the types: externally tagged enum with
`rename_all = "lowercase"`, struct fields in declaration order, `skip_serializing_if`
on empty collections and absent options, and `default` on the same fields
when deserialising. -/

/-- Rust `LocalDistribution`. -/
structure LocalDistribution where
  command : String
  args : List String
  name : Option String
  env : List (String × String)
  deriving DecidableEq, Repr

/-- Rust `NpxDistribution`. -/
structure NpxDistribution where
  package : String
  args : List String
  env : List (String × String)
  deriving DecidableEq, Repr

/-- Rust `PipxDistribution`. -/
structure PipxDistribution where
  package : String
  args : List String
  deriving DecidableEq, Repr

/-- Rust `CargoDistribution` (`crate_name` is serialised under the key "crate"). -/
structure CargoDistribution where
  crate_name : String
  version : Option String
  binary : Option String
  args : List String
  deriving DecidableEq, Repr

/-- Rust `BinaryDistribution`. -/
structure BinaryDistribution where
  archive : String
  cmd : String
  args : List String
  deriving DecidableEq, Repr

/-- Rust `HttpHeader`. -/
structure HttpHeader where
  name : String
  value : String
  deriving DecidableEq, Repr

/-- Rust `HttpDistribution`. -/
structure HttpDistribution where
  name : String
  url : String
  headers : List HttpHeader
  deriving DecidableEq, Repr

/-- Rust `ComponentSource`. -/
inductive ComponentSource where
  | Builtin (name : String)
  | Registry (id : String)
  | Url (url : String)
  | Local (d : LocalDistribution)
  | Npx (d : NpxDistribution)
  | Pipx (d : PipxDistribution)
  | Cargo (d : CargoDistribution)
  | Binary (m : List (String × BinaryDistribution))
  | Http (d : HttpDistribution)
  | Sse (d : HttpDistribution)
  deriving DecidableEq, Repr

/-- Serialise a string list (serde `Vec<String>`). -/
def serStringList (l : List String) : Json :=
  Json.arr (l.map Json.str)

/-- Serialise a string map (serde `BTreeMap<String, String>`). -/
def serStringMap (m : List (String × String)) : Json :=
  Json.obj (m.map (fun p => (p.1, Json.str p.2)))

/-- Serde serialisation of `LocalDistribution`. -/
def LocalDistribution.toJson (d : LocalDistribution) : Json :=
  Json.obj ([("command", Json.str d.command)]
    ++ (if d.args.isEmpty then [] else [("args", serStringList d.args)])
    ++ (match d.name with
        | none => []
        | some n => [("name", Json.str n)])
    ++ (if d.env.isEmpty then [] else [("env", serStringMap d.env)]))

/-- Serde serialisation of `NpxDistribution`. -/
def NpxDistribution.toJson (d : NpxDistribution) : Json :=
  Json.obj ([("package", Json.str d.package)]
    ++ (if d.args.isEmpty then [] else [("args", serStringList d.args)])
    ++ (if d.env.isEmpty then [] else [("env", serStringMap d.env)]))

/-- Serde serialisation of `PipxDistribution`. -/
def PipxDistribution.toJson (d : PipxDistribution) : Json :=
  Json.obj ([("package", Json.str d.package)]
    ++ (if d.args.isEmpty then [] else [("args", serStringList d.args)]))

/-- Serde serialisation of `CargoDistribution`. -/
def CargoDistribution.toJson (d : CargoDistribution) : Json :=
  Json.obj ([("crate", Json.str d.crate_name)]
    ++ (match d.version with
        | none => []
        | some v => [("version", Json.str v)])
    ++ (match d.binary with
        | none => []
        | some b => [("binary", Json.str b)])
    ++ (if d.args.isEmpty then [] else [("args", serStringList d.args)]))

/-- Serde serialisation of `BinaryDistribution`. -/
def BinaryDistribution.toJson (d : BinaryDistribution) : Json :=
  Json.obj ([("archive", Json.str d.archive), ("cmd", Json.str d.cmd)]
    ++ (if d.args.isEmpty then [] else [("args", serStringList d.args)]))

/-- Serde serialisation of `HttpHeader`. -/
def HttpHeader.toJson (h : HttpHeader) : Json :=
  Json.obj [("name", Json.str h.name), ("value", Json.str h.value)]

/-- Serde serialisation of `HttpDistribution` (`headers` has no skip rule). -/
def HttpDistribution.toJson (d : HttpDistribution) : Json :=
  Json.obj [("name", Json.str d.name), ("url", Json.str d.url),
            ("headers", Json.arr (d.headers.map HttpHeader.toJson))]

/-- Serde serialisation of `ComponentSource` (externally tagged, lowercase). -/
def ComponentSource.toJson : ComponentSource → Json
  | ComponentSource.Builtin s => Json.obj [("builtin", Json.str s)]
  | ComponentSource.Registry s => Json.obj [("registry", Json.str s)]
  | ComponentSource.Url s => Json.obj [("url", Json.str s)]
  | ComponentSource.Local d => Json.obj [("local", d.toJson)]
  | ComponentSource.Npx d => Json.obj [("npx", d.toJson)]
  | ComponentSource.Pipx d => Json.obj [("pipx", d.toJson)]
  | ComponentSource.Cargo d => Json.obj [("cargo", d.toJson)]
  | ComponentSource.Binary m =>
      Json.obj [("binary", Json.obj (m.map (fun p => (p.1, p.2.toJson))))]
  | ComponentSource.Http d => Json.obj [("http", d.toJson)]
  | ComponentSource.Sse d => Json.obj [("sse", d.toJson)]

/-- Field lookup by name (serde matches struct fields by key). -/
def getField : List (String × Json) → String → Option Json
  | [], _ => none
  | (k, v) :: rest, key => if k = key then some v else getField rest key

/-- Parse a JSON string. -/
def parseString : Json → Option String
  | Json.str s => some s
  | _ => none

/-- Parse a list of JSON strings. -/
def parseStringListAux : List Json → Option (List String)
  | [] => some []
  | Json.str s :: rest => (parseStringListAux rest).map (fun l => s :: l)
  | _ => none

/-- Parse a JSON array of strings (serde `Vec<String>`). -/
def parseStringList : Json → Option (List String)
  | Json.arr elems => parseStringListAux elems
  | _ => none

/-- Parse the entries of a string-valued JSON object. -/
def parseStringMapAux : List (String × Json) → Option (List (String × String))
  | [] => some []
  | (k, Json.str v) :: rest => (parseStringMapAux rest).map (fun l => (k, v) :: l)
  | _ => none

/-- Parse a JSON object of strings (serde `BTreeMap<String, String>`). -/
def parseStringMap : Json → Option (List (String × String))
  | Json.obj fields => parseStringMapAux fields
  | _ => none

/-- Required string field. -/
def reqStr (fields : List (String × Json)) (key : String) : Option String :=
  getField fields key >>= parseString

/-- Optional `Vec<String>` field with serde `default` (missing means empty). -/
def optStrList (fields : List (String × Json)) (key : String) :
    Option (List String) :=
  match getField fields key with
  | none => some []
  | some j => parseStringList j

/-- Optional `Option<String>` field with serde `default` (missing means none). -/
def optStr (fields : List (String × Json)) (key : String) :
    Option (Option String) :=
  match getField fields key with
  | none => some none
  | some j => (parseString j).map some

/-- Optional string-map field with serde `default` (missing means empty). -/
def optStrMap (fields : List (String × Json)) (key : String) :
    Option (List (String × String)) :=
  match getField fields key with
  | none => some []
  | some j => parseStringMap j

/-- Serde deserialisation of `LocalDistribution`. -/
def LocalDistribution.fromJson : Json → Option LocalDistribution
  | Json.obj fields => do
      let command ← reqStr fields "command"
      let args ← optStrList fields "args"
      let name ← optStr fields "name"
      let env ← optStrMap fields "env"
      some { command := command, args := args, name := name, env := env }
  | _ => none

/-- Serde deserialisation of `NpxDistribution`. -/
def NpxDistribution.fromJson : Json → Option NpxDistribution
  | Json.obj fields => do
      let package ← reqStr fields "package"
      let args ← optStrList fields "args"
      let env ← optStrMap fields "env"
      some { package := package, args := args, env := env }
  | _ => none

/-- Serde deserialisation of `PipxDistribution`. -/
def PipxDistribution.fromJson : Json → Option PipxDistribution
  | Json.obj fields => do
      let package ← reqStr fields "package"
      let args ← optStrList fields "args"
      some { package := package, args := args }
  | _ => none

/-- Serde deserialisation of `CargoDistribution`. -/
def CargoDistribution.fromJson : Json → Option CargoDistribution
  | Json.obj fields => do
      let crate_name ← reqStr fields "crate"
      let version ← optStr fields "version"
      let binary ← optStr fields "binary"
      let args ← optStrList fields "args"
      some { crate_name := crate_name, version := version, binary := binary, args := args }
  | _ => none

/-- Serde deserialisation of `BinaryDistribution`. -/
def BinaryDistribution.fromJson : Json → Option BinaryDistribution
  | Json.obj fields => do
      let archive ← reqStr fields "archive"
      let cmd ← reqStr fields "cmd"
      let args ← optStrList fields "args"
      some { archive := archive, cmd := cmd, args := args }
  | _ => none

/-- Serde deserialisation of `HttpHeader`. -/
def HttpHeader.fromJson : Json → Option HttpHeader
  | Json.obj fields => do
      let name ← reqStr fields "name"
      let value ← reqStr fields "value"
      some { name := name, value := value }
  | _ => none

/-- Parse a JSON array of headers. -/
def parseHeadersAux : List Json → Option (List HttpHeader)
  | [] => some []
  | j :: rest => do
      let h ← HttpHeader.fromJson j
      let t ← parseHeadersAux rest
      some (h :: t)

/-- Serde deserialisation of `HttpDistribution`. -/
def HttpDistribution.fromJson : Json → Option HttpDistribution
  | Json.obj fields => do
      let name ← reqStr fields "name"
      let url ← reqStr fields "url"
      let headersJson ← getField fields "headers"
      let headers ← match headersJson with
        | Json.arr elems => parseHeadersAux elems
        | _ => none
      some { name := name, url := url, headers := headers }
  | _ => none

/-- Parse the entries of the platform map of a `Binary` source. -/
def parseBinaryMapAux : List (String × Json) → Option (List (String × BinaryDistribution))
  | [] => some []
  | (k, j) :: rest => do
      let b ← BinaryDistribution.fromJson j
      let t ← parseBinaryMapAux rest
      some ((k, b) :: t)

/-- Serde deserialisation of `ComponentSource` (externally tagged). -/
def ComponentSource.fromJson : Json → Option ComponentSource
  | Json.obj [(tag, payload)] =>
      if tag = "builtin" then (parseString payload).map ComponentSource.Builtin
      else if tag = "registry" then (parseString payload).map ComponentSource.Registry
      else if tag = "url" then (parseString payload).map ComponentSource.Url
      else if tag = "local" then (LocalDistribution.fromJson payload).map ComponentSource.Local
      else if tag = "npx" then (NpxDistribution.fromJson payload).map ComponentSource.Npx
      else if tag = "pipx" then (PipxDistribution.fromJson payload).map ComponentSource.Pipx
      else if tag = "cargo" then (CargoDistribution.fromJson payload).map ComponentSource.Cargo
      else if tag = "binary" then
        match payload with
        | Json.obj entries => (parseBinaryMapAux entries).map ComponentSource.Binary
        | _ => none
      else if tag = "http" then (HttpDistribution.fromJson payload).map ComponentSource.Http
      else if tag = "sse" then (HttpDistribution.fromJson payload).map ComponentSource.Sse
      else none
  | _ => none

/-! ## Sample data used by concrete evaluations -/

/-- All content parts of a provisional message list, in order. -/
def flatten_parts (messages : List Message) : List ContentPart :=
  (messages.map Message.content).flatten

/-- Sample user message. -/
def msg_u1 : Message := { role := "user", content := [ContentPart.Text "u"] }

/-- Sample assistant message matching the part streamed in the traces below. -/
def msg_a1 : Message := { role := "assistant", content := [ContentPart.Text "a"] }

/-- Second sample user message. -/
def msg_u2 : Message := { role := "user", content := [ContentPart.Text "v"] }

/-- A user message whose text is blank. -/
def blank_user : Message := { role := "user", content := [ContentPart.Text ""] }

/-! ## Helper lemmas about the history-actor selection -/

theorem matchKey_le_one (m : HistoryMatch) : matchKey m ≤ 1 := by
  unfold matchKey
  split <;> omega

theorem matchKey_eq_one_iff (m : HistoryMatch) : matchKey m = 1 ↔ m.canceled = false := by
  unfold matchKey
  split <;> rename_i h <;> simp [h]

theorem max_by_key_step_cases (b0 : Option (Nat × HistoryMatch))
    (x y : Nat × HistoryMatch) (h : max_by_key_step b0 x = some y) :
    y = x ∨ b0 = some y := by
  cases b0 with
  | none =>
    left
    simp only [max_by_key_step] at h
    exact (Option.some.inj h).symm
  | some b =>
    simp only [max_by_key_step] at h
    by_cases hk : matchKey b.2 ≤ matchKey x.2
    · rw [if_pos hk] at h; left; exact (Option.some.inj h).symm
    · rw [if_neg hk] at h; right; rw [Option.some.inj h]

theorem foldl_max_by_key_mem (l : List (Nat × HistoryMatch))
    (b0 : Option (Nat × HistoryMatch)) (x : Nat × HistoryMatch)
    (h : l.foldl max_by_key_step b0 = some x) : x ∈ l ∨ b0 = some x := by
  induction l generalizing b0 with
  | nil => right; exact h
  | cons hd tl ih =>
    simp only [List.foldl_cons] at h
    rcases ih _ h with hmem | hb
    · left; exact List.mem_cons_of_mem _ hmem
    · rcases max_by_key_step_cases b0 hd x hb with hx | hb0
      · left; rw [hx]; exact List.mem_cons_self _ _
      · right; exact hb0

/-- If `max_by_key_last` chooses a candidate, the candidate is in the list. -/
theorem max_by_key_last_mem (l : List (Nat × HistoryMatch)) (x : Nat × HistoryMatch)
    (h : max_by_key_last l = some x) : x ∈ l := by
  rcases foldl_max_by_key_mem l none x h with hmem | hb
  · exact hmem
  · cases hb

theorem foldl_max_by_key_non_canceled (l : List (Nat × HistoryMatch)) :
    ∀ b0 : Option (Nat × HistoryMatch),
    ((∃ y ∈ l, y.2.canceled = false) ∨ (∃ b, b0 = some b ∧ b.2.canceled = false)) →
    ∃ x, l.foldl max_by_key_step b0 = some x ∧ x.2.canceled = false := by
  induction l with
  | nil =>
    intro b0 hyp
    rcases hyp with ⟨y, hy, _⟩ | ⟨b, hb, hbc⟩
    · cases hy
    · exact ⟨b, hb, hbc⟩
  | cons hd tl ih =>
    intro b0 hyp
    simp only [List.foldl_cons]
    by_cases hhd : hd.2.canceled = false
    · -- the head is a non-cancelled candidate; the step keeps a non-cancelled best
      apply ih
      right
      cases b0 with
      | none => exact ⟨hd, rfl, hhd⟩
      | some b =>
        by_cases hk : matchKey b.2 ≤ matchKey hd.2
        · exact ⟨hd, by simp only [max_by_key_step, if_pos hk], hhd⟩
        · exact absurd (le_trans (matchKey_le_one b.2)
            (le_of_eq ((matchKey_eq_one_iff hd.2).mpr hhd).symm)) hk
    · rcases hyp with ⟨y, hy, hyc⟩ | ⟨b, hb, hbc⟩
      · rcases List.mem_cons.mp hy with hyh | hyt
        · exact absurd (hyh ▸ hyc) hhd
        · exact ih _ (Or.inl ⟨y, hyt, hyc⟩)
      · -- the held best is non-cancelled; the step keeps a non-cancelled best
        apply ih
        right
        subst hb
        by_cases hk : matchKey b.2 ≤ matchKey hd.2
        · refine ⟨hd, by simp only [max_by_key_step, if_pos hk], ?_⟩
          have h1 : matchKey b.2 = 1 := (matchKey_eq_one_iff b.2).mpr hbc
          have h2 : matchKey hd.2 = 1 :=
            le_antisymm (matchKey_le_one hd.2) (h1 ▸ hk)
          exact (matchKey_eq_one_iff hd.2).mp h2
        · exact ⟨b, by simp only [max_by_key_step, if_neg hk], hbc⟩

/-- If some candidate is non-cancelled, the chosen one is non-cancelled. -/
theorem max_by_key_last_non_canceled (l : List (Nat × HistoryMatch))
    (h : ∃ y ∈ l, y.2.canceled = false) :
    ∃ x, max_by_key_last l = some x ∧ x.2.canceled = false :=
  foldl_max_by_key_non_canceled l none (Or.inl h)

/-! ## Helper lemmas about history matching -/

theorem mem_request_candidates (sessions : List SessionData)
    (messages : List Message) (x : Nat × HistoryMatch)
    (h : x ∈ request_candidates sessions messages) :
    ∃ s, sessions.get? x.1 = some s ∧ s.match_history messages = some x.2 := by
  unfold request_candidates at h
  rcases List.mem_filterMap.mp h with ⟨p, hp, hmap⟩
  obtain ⟨i, s⟩ := p
  rcases Option.map_eq_some'.mp hmap with ⟨m, hm, hx⟩
  subst hx
  refine ⟨s, ?_, hm⟩
  rw [List.get?_eq_getElem?]
  exact List.mem_enum_iff_getElem?.mp hp

theorem request_candidates_of_match (sessions : List SessionData)
    (messages : List Message) (i : Nat) (s : SessionData) (m : HistoryMatch)
    (hs : sessions.get? i = some s) (hm : s.match_history messages = some m) :
    (i, m) ∈ request_candidates sessions messages := by
  unfold request_candidates
  apply List.mem_filterMap.mpr
  refine ⟨(i, s), ?_, ?_⟩
  · exact List.mem_enum_iff_getElem?.mpr (List.get?_eq_getElem? .. ▸ hs)
  · simp [hm]

/-- What a successful `match_history` says about the incoming list. -/
theorem SessionData.match_history_spec (s : SessionData) (incoming : List Message)
    (m : HistoryMatch) (h : s.match_history incoming = some m) :
    s.committed <+: incoming ∧
    (m.canceled = false →
      incoming = s.committed ++ s.provisional_messages ++ m.new_messages) ∧
    (m.canceled = true → incoming = s.committed ++ m.new_messages) := by
  unfold SessionData.match_history at h
  by_cases h1 : incoming.length < s.committed.length
  · rw [if_pos h1] at h; cases h
  rw [if_neg h1] at h
  by_cases h2 : incoming.take s.committed.length ≠ s.committed
  · rw [if_pos h2] at h; cases h
  rw [if_neg h2] at h
  have htake : incoming.take s.committed.length = s.committed := not_not.mp h2
  have hsplit : s.committed ++ incoming.drop s.committed.length = incoming := by
    conv_rhs => rw [← List.take_append_drop s.committed.length incoming]
    rw [htake]
  by_cases h3 : ¬ (s.provisional_messages <+: incoming.drop s.committed.length)
  · rw [if_pos h3] at h
    cases h
    refine ⟨⟨_, hsplit⟩, ?_, ?_⟩
    · intro hc; cases hc
    · intro _; exact hsplit.symm
  · rw [if_neg h3] at h
    cases h
    rcases not_not.mp h3 with ⟨t, ht⟩
    refine ⟨⟨_, hsplit⟩, ?_, ?_⟩
    · intro _
      have hdrop : (incoming.drop s.committed.length).drop s.provisional_messages.length = t := by
        rw [← ht, List.drop_left]
      rw [hdrop, List.append_assoc, ht, hsplit]
    · intro hc; cases hc

/-! ## Helper lemmas about `finish_vscode_request` -/

theorem getD_set_self {α : Type} (l : List α) (i : Nat) (v d : α)
    (h : i < l.length) : (l.set i v).getD i d = v := by
  simp [List.getD, List.getElem?_set_self, h]

theorem getD_append_length {α : Type} (l : List α) (a d : α) :
    (l ++ [a]).getD l.length d = a := by
  simp [List.getD, List.getElem?_concat_length]

theorem finish_vscode_request_session_idx (sessions : List SessionData)
    (idx : Nat) (hm : HistoryMatch) (rid : Nat) (created : Bool) :
    (finish_vscode_request sessions idx hm rid created).session_idx = idx := by
  unfold finish_vscode_request
  by_cases he : hm.new_messages.isEmpty <;> simp [he]

theorem finish_vscode_request_created (sessions : List SessionData)
    (idx : Nat) (hm : HistoryMatch) (rid : Nat) (created : Bool) :
    (finish_vscode_request sessions idx hm rid created).created = created := by
  unfold finish_vscode_request
  by_cases he : hm.new_messages.isEmpty <;> simp [he]

theorem finish_vscode_request_outcome (sessions : List SessionData)
    (idx : Nat) (hm : HistoryMatch) (rid : Nat) (created : Bool) :
    (finish_vscode_request sessions idx hm rid created).outcome =
      if hm.new_messages.isEmpty then HandleOutcome.respondEmpty
      else HandleOutcome.dispatch hm.new_messages hm.canceled := by
  unfold finish_vscode_request
  by_cases he : hm.new_messages.isEmpty <;> simp [he]

theorem finish_vscode_request_committed (sessions : List SessionData)
    (idx : Nat) (hm : HistoryMatch) (rid : Nat) (created : Bool)
    (h : idx < sessions.length) :
    ((finish_vscode_request sessions idx hm rid created).sessions.getD idx
        SessionData.new).committed =
      if hm.canceled = false ∧ hm.new_messages.isEmpty = false then
        (sessions.getD idx SessionData.new).committed ++
          (sessions.getD idx SessionData.new).provisional_messages
      else (sessions.getD idx SessionData.new).committed := by
  unfold finish_vscode_request
  by_cases he : hm.new_messages.isEmpty <;> by_cases hc : hm.canceled <;>
    simp [he, hc, List.getD, List.getElem?_set_self, h,
      SessionData.discard_provisional, SessionData.commit_provisional,
      SessionData.start_provisional]

/-! ## Getting the matched session out of `handle_vscode_request` -/

theorem get?_lt_length {α : Type} (l : List α) (i : Nat) (x : α)
    (h : l.get? i = some x) : i < l.length := by
  rw [List.get?_eq_getElem?] at h
  exact (List.getElem?_eq_some.mp h).1

theorem getD_of_get? {α : Type} (l : List α) (i : Nat) (x d : α)
    (h : l.get? i = some x) : l.getD i d = x := by
  rw [List.get?_eq_getElem?] at h
  simp [List.getD, h]

/-- C2 (confirmed): for every `ProvideResponseRequest` handled by the history
actor, the committed history of the chosen (or newly created) session is a
prefix of the request's message list after the handler runs, and recording a
streamed part never changes the committed history, so the invariant is
preserved by every operation of the handler (commit, discard, start of a new
provisional exchange) and by streaming. -/
theorem committed_is_prefix_of_accepted_request
    (sessions : List SessionData) (messages : List Message) (rid : Nat) :
    (((handle_vscode_request sessions messages rid).sessions.getD
        (handle_vscode_request sessions messages rid).session_idx
        SessionData.new).committed <+: messages) ∧
    (∀ (s : SessionData) (p : ContentPart),
      (s.record_part p).committed = s.committed) := by
  constructor
  · simp only [handle_vscode_request]
    cases hmax : max_by_key_last (request_candidates sessions messages) with
    | some x =>
      obtain ⟨idx, m⟩ := x
      rcases mem_request_candidates _ _ _ (max_by_key_last_mem _ _ hmax) with ⟨s, hs, hm⟩
      rcases SessionData.match_history_spec s messages m hm with ⟨hpre, hfalse, _⟩
      have hidx : idx < sessions.length := get?_lt_length _ _ _ hs
      have hgetD : sessions.getD idx SessionData.new = s := getD_of_get? _ _ _ _ hs
      rw [finish_vscode_request_session_idx,
        finish_vscode_request_committed _ _ _ _ _ hidx, hgetD]
      by_cases hcond : m.canceled = false ∧ m.new_messages.isEmpty = false
      · rw [if_pos hcond]
        exact ⟨m.new_messages, (hfalse hcond.1).symm⟩
      · rw [if_neg hcond]
        exact hpre
    | none =>
      have hlen : (sessions ++ [SessionData.new]).length - 1 = sessions.length := by
        simp
      have hidx : sessions.length < (sessions ++ [SessionData.new]).length := by
        simp
      rw [hlen, finish_vscode_request_session_idx,
        finish_vscode_request_committed _ _ _ _ _ hidx,
        getD_append_length]
      by_cases hcond : (false = false ∧ messages.isEmpty = false)
      · rw [if_pos hcond]
        exact List.nil_prefix
      · rw [if_neg hcond]
        exact List.nil_prefix
  · intro s p
    unfold SessionData.record_part
    cases s.provisional_messages.getLast? with
    | none => rfl
    | some msg =>
      by_cases hrole : msg.role = ROLE_ASSISTANT <;> simp [hrole]

/-- C10 (confirmed): every `SessionRequest` the history actor dispatches to a
session actor carries a non-empty message list (a matched request with no new
messages is answered immediately and dispatched nowhere), and on a non-empty
message list the permission-approval path's access to the first message of the
next request cannot hit an empty list. -/
theorem dispatched_messages_never_empty
    (sessions : List SessionData) (messages : List Message) (rid : Nat)
    (nm : List Message) (c : Bool)
    (h : (handle_vscode_request sessions messages rid).outcome =
      HandleOutcome.dispatch nm c) :
    nm ≠ [] ∧
    (∀ (hit canc : Bool) (options : List PermissionOption) (tid : String),
      permission_decision hit options tid
        (some { messages := nm, canceled := canc, has_internal_tool := hit }) ≠ none) := by
  have hne : nm ≠ [] := by
    simp only [handle_vscode_request] at h
    cases hmax : max_by_key_last (request_candidates sessions messages) with
    | some x =>
      obtain ⟨idx, m⟩ := x
      rw [hmax] at h
      simp only [finish_vscode_request_outcome] at h
      by_cases he : m.new_messages.isEmpty
      · rw [if_pos he] at h; cases h
      · rw [if_neg he] at h
        cases h
        exact fun hnil => he (by rw [hnil]; rfl)
    | none =>
      rw [hmax] at h
      simp only [finish_vscode_request_outcome] at h
      by_cases he : messages.isEmpty
      · rw [if_pos he] at h; cases h
      · rw [if_neg he] at h
        cases h
        exact fun hnil => he (by rw [hnil]; rfl)
  refine ⟨hne, ?_⟩
  intro hit canc options tid
  unfold permission_decision
  cases hhit : hit with
  | false => simp
  | true =>
    simp only [Bool.not_true, Bool.false_eq_true, if_false]
    cases hnm : nm with
    | nil => exact absurd hnm hne
    | cons first rest =>
      simp only [List.head?_cons]
      by_cases hc : (canc || !(first.has_just_tool_result tid)) = true
      · simp [hc]
      · simp only [hc, if_false]
        cases options.find? (fun o => o.kind == PermissionOptionKind.allowOnce) <;> simp

/-- C1 (amended; see the counterexample below): among all matching sessions the
history actor prefers a non-cancelled match over a cancelled one — whenever
some session yields a non-cancelled match, the chosen session is an existing
session whose match is non-cancelled — and whenever a session is chosen rather
than created it genuinely matches the incoming messages.  The number of
matched messages plays no role in the choice. -/
theorem chosen_match_prefers_non_cancelled
    (sessions : List SessionData) (messages : List Message) (rid : Nat) :
    ((∃ i s m, sessions.get? i = some s ∧ s.match_history messages = some m ∧
        m.canceled = false) →
      (handle_vscode_request sessions messages rid).created = false ∧
      ∃ s2 m2,
        sessions.get? (handle_vscode_request sessions messages rid).session_idx
          = some s2 ∧
        s2.match_history messages = some m2 ∧ m2.canceled = false) ∧
    ((handle_vscode_request sessions messages rid).created = false →
      ∃ s2 m2,
        sessions.get? (handle_vscode_request sessions messages rid).session_idx
          = some s2 ∧
        s2.match_history messages = some m2) := by
  constructor
  · rintro ⟨i, s, m, hs, hm, hc⟩
    have hcand : (i, m) ∈ request_candidates sessions messages :=
      request_candidates_of_match sessions messages i s m hs hm
    rcases max_by_key_last_non_canceled (request_candidates sessions messages)
      ⟨(i, m), hcand, hc⟩ with ⟨x, hmax, hxc⟩
    rcases mem_request_candidates _ _ _ (max_by_key_last_mem _ _ hmax) with ⟨s2, hs2, hm2⟩
    simp only [handle_vscode_request, hmax]
    obtain ⟨idx, m2⟩ := x
    rw [finish_vscode_request_created, finish_vscode_request_session_idx]
    exact ⟨rfl, s2, m2, hs2, hm2, hxc⟩
  · intro hcreated
    simp only [handle_vscode_request] at hcreated ⊢
    cases hmax : max_by_key_last (request_candidates sessions messages) with
    | some x =>
      obtain ⟨idx, m⟩ := x
      rcases mem_request_candidates _ _ _ (max_by_key_last_mem _ _ hmax) with ⟨s2, hs2, hm2⟩
      refine ⟨s2, m, ?_, hm2⟩
      show sessions.get? (finish_vscode_request sessions idx m rid false).session_idx
        = some s2
      rw [finish_vscode_request_session_idx]
      exact hs2
    | none =>
      rw [hmax] at hcreated
      have hfalse : (finish_vscode_request (sessions ++ [SessionData.new])
          ((sessions ++ [SessionData.new]).length - 1)
          { new_messages := messages, canceled := false } rid true).created = false :=
        hcreated
      rw [finish_vscode_request_created] at hfalse
      cases hfalse

/-- C1 witness: the preference theorem applied to a concrete state with a
non-cancelled match. -/
theorem chosen_match_prefers_non_cancelled_witness :
    (handle_vscode_request [SessionData.new] [] 0).created = false ∧
    ∃ s2 m2,
      [SessionData.new].get? (handle_vscode_request [SessionData.new] [] 0).session_idx
        = some s2 ∧
      s2.match_history [] = some m2 ∧ m2.canceled = false :=
  (chosen_match_prefers_non_cancelled [SessionData.new] [] 0).1
    ⟨0, SessionData.new, { new_messages := [], canceled := false },
      by decide, by decide, rfl⟩

/-- C1 counterexample: with a session holding one committed message and a
later empty session, both match the incoming list non-cancelled, and the
history actor picks the empty session — whose number of matched (committed)
messages, zero, is not maximal.  The claim that the chosen session has the
maximum number of matched committed messages is therefore false. -/
theorem chosen_match_not_longest_counterexample :
    (SessionData.match_history
        { committed := [msg_u1], provisional_messages := [], streaming := none }
        [msg_u1] = some { new_messages := [], canceled := false }) ∧
    (SessionData.match_history SessionData.new [msg_u1]
      = some { new_messages := [msg_u1], canceled := false }) ∧
    (handle_vscode_request
        [{ committed := [msg_u1], provisional_messages := [], streaming := none },
         SessionData.new] [msg_u1] 5).session_idx = 1 ∧
    (SessionData.new).committed.length = 0 ∧
    ([msg_u1] : List Message).length = 1 := by decide

/-- C10 witness: the dispatch theorem applied to a concrete request that
creates a session and dispatches one message. -/
theorem dispatched_messages_never_empty_witness :
    ([msg_u1] : List Message) ≠ [] ∧
    (∀ (hit canc : Bool) (options : List PermissionOption) (tid : String),
      permission_decision hit options tid
        (some { messages := [msg_u1], canceled := canc, has_internal_tool := hit })
        ≠ none) :=
  dispatched_messages_never_empty [] [msg_u1] 0 [msg_u1] false (by decide)

/-! ## Identical resend (C4) -/

theorem match_history_resend (s : SessionData) :
    s.match_history (s.committed ++ s.provisional_messages) =
      some { new_messages := [], canceled := false } := by
  unfold SessionData.match_history
  have h1 : ¬ (s.committed ++ s.provisional_messages).length < s.committed.length := by
    rw [List.length_append]
    omega
  rw [if_neg h1]
  have h2 : (s.committed ++ s.provisional_messages).take s.committed.length
      = s.committed := List.take_left _ _
  rw [if_neg (by simp [h2])]
  have h3 : (s.committed ++ s.provisional_messages).drop s.committed.length
      = s.provisional_messages := List.drop_left _ _
  rw [h3]
  rw [if_neg (by simp [List.prefix_refl])]
  rw [List.drop_length]

/-- C4 (amended; see the counterexample below): when the session that has just
completed a turn is the one the matcher selects — in particular when it is the
only session — re-sending the identical message list (committed history
followed by the provisional messages) is answered immediately with the empty
response, nothing is dispatched to the session actor or the agent, and the
session list is left unchanged. -/
theorem identical_resend_responds_empty (s : SessionData) (rid : Nat) :
    (handle_vscode_request [s] (s.committed ++ s.provisional_messages) rid).outcome
      = HandleOutcome.respondEmpty ∧
    (handle_vscode_request [s] (s.committed ++ s.provisional_messages) rid).sessions
      = [s] := by
  have henum : ([s] : List SessionData).enum = [(0, s)] := rfl
  have hcand : request_candidates [s] (s.committed ++ s.provisional_messages)
      = [(0, { new_messages := [], canceled := false })] := by
    unfold request_candidates
    rw [henum]
    simp [match_history_resend]
  have hmax : max_by_key_last [(0, ({ new_messages := [], canceled := false } : HistoryMatch))]
      = some (0, { new_messages := [], canceled := false }) := rfl
  simp only [handle_vscode_request, hcand, hmax]
  unfold finish_vscode_request
  simp

/-- C4 counterexample: a reachable state (built by the model trace below) in
which a session has just completed a turn, yet re-sending its exact history is
matched to a later empty session and every message is dispatched again.  Trace:
request `[u]` creates session 0; a part is streamed and the turn completes;
request `[u, a, v]` commits and starts a new turn; a part is streamed and the
turn completes; an empty request creates the empty session 1; finally the
identical resend of session 0's history dispatches all four messages to
session 1 instead of answering immediately. -/
theorem identical_resend_counterexample :
    (handle_vscode_request
      (handle_vscode_request
        ((handle_session_complete
          ((handle_session_part
            (handle_vscode_request
              ((handle_session_complete
                ((handle_session_part
                  (handle_vscode_request [] [msg_u1] 1).sessions
                  0 (ContentPart.Text "a")).1)
                0).1)
              [msg_u1, msg_a1, msg_u2] 2).sessions
            0 (ContentPart.Text "b")).1)
          0).1)
        [] 3).sessions
      [msg_u1, msg_a1, msg_u2,
       { role := "assistant", content := [ContentPart.Text "b"] }] 4).session_idx = 1 ∧
    (handle_vscode_request
      (handle_vscode_request
        ((handle_session_complete
          ((handle_session_part
            (handle_vscode_request
              ((handle_session_complete
                ((handle_session_part
                  (handle_vscode_request [] [msg_u1] 1).sessions
                  0 (ContentPart.Text "a")).1)
                0).1)
              [msg_u1, msg_a1, msg_u2] 2).sessions
            0 (ContentPart.Text "b")).1)
          0).1)
        [] 3).sessions
      [msg_u1, msg_a1, msg_u2,
       { role := "assistant", content := [ContentPart.Text "b"] }] 4).outcome
      = HandleOutcome.dispatch
          [msg_u1, msg_a1, msg_u2,
           { role := "assistant", content := [ContentPart.Text "b"] }] false ∧
    -- the resent list is exactly session 0's committed plus provisional history
    (((handle_vscode_request
        ((handle_session_complete
          ((handle_session_part
            (handle_vscode_request
              ((handle_session_complete
                ((handle_session_part
                  (handle_vscode_request [] [msg_u1] 1).sessions
                  0 (ContentPart.Text "a")).1)
                0).1)
              [msg_u1, msg_a1, msg_u2] 2).sessions
            0 (ContentPart.Text "b")).1)
          0).1)
        [] 3).sessions.getD 0 SessionData.new).committed ++
      ((handle_vscode_request
        ((handle_session_complete
          ((handle_session_part
            (handle_vscode_request
              ((handle_session_complete
                ((handle_session_part
                  (handle_vscode_request [] [msg_u1] 1).sessions
                  0 (ContentPart.Text "a")).1)
                0).1)
              [msg_u1, msg_a1, msg_u2] 2).sessions
            0 (ContentPart.Text "b")).1)
          0).1)
        [] 3).sessions.getD 0 SessionData.new).provisional_messages)
      = [msg_u1, msg_a1, msg_u2,
         { role := "assistant", content := [ContentPart.Text "b"] }] := by decide

/-! ## Streaming parts coalesce (C7) -/

theorem dropLast_append_of_getLast? {α : Type} (l : List α) (m : α)
    (h : l.getLast? = some m) : l.dropLast ++ [m] = l := by
  have hne : l ≠ [] := by
    intro he; subst he; simp at h
  have hlast := List.getLast?_eq_getLast l hne
  rw [h] at hlast
  have hm : l.getLast hne = m := by injection hlast.symm
  rw [← hm]
  exact List.dropLast_append_getLast hne

/-- C7 (confirmed): recording a streamed part never changes the committed
history and always extends the flattened provisional content by exactly that
part (chunks are never replaced); when the last provisional message has role
assistant the part is appended to its content and the message-list length is
unchanged (adjacent chunks coalesce), otherwise a single new assistant message
holding the part is appended. -/
theorem record_part_appends_and_coalesces (s : SessionData) (p : ContentPart) :
    (s.record_part p).committed = s.committed ∧
    flatten_parts (s.record_part p).provisional_messages
      = flatten_parts s.provisional_messages ++ [p] ∧
    (∀ last, s.provisional_messages.getLast? = some last →
      last.role = ROLE_ASSISTANT →
      (s.record_part p).provisional_messages.length
          = s.provisional_messages.length ∧
      (s.record_part p).provisional_messages
          = s.provisional_messages.dropLast ++
            [{ role := last.role, content := last.content ++ [p] }]) ∧
    ((∀ last, s.provisional_messages.getLast? = some last →
        last.role ≠ ROLE_ASSISTANT) →
      (s.record_part p).provisional_messages
        = s.provisional_messages ++ [{ role := ROLE_ASSISTANT, content := [p] }]) := by
  unfold SessionData.record_part
  split
  · rename_i msg hlast
    by_cases hrole : msg.role = ROLE_ASSISTANT
    · rw [if_pos hrole]
      have hsplit := dropLast_append_of_getLast? _ _ hlast
      refine ⟨rfl, ?_, ?_, ?_⟩
      · conv_rhs => rw [← hsplit]
        simp [flatten_parts]
      · intro last hsome hlr
        rw [hlast] at hsome
        cases hsome
        constructor
        · conv_rhs => rw [← hsplit]
          simp
        · rfl
      · intro hno
        exact absurd hrole (hno msg hlast)
    · rw [if_neg hrole]
      refine ⟨rfl, ?_, ?_, ?_⟩
      · simp [flatten_parts]
      · intro last hsome hlr
        rw [hlast] at hsome
        cases hsome
        exact absurd hlr hrole
      · intro _; rfl
  · rename_i hlast
    have hnil : s.provisional_messages = [] := by
      cases hl : s.provisional_messages with
      | nil => rfl
      | cons a t =>
        rw [hl] at hlast
        simp at hlast
    refine ⟨rfl, ?_, ?_, ?_⟩
    · simp [hnil, flatten_parts]
    · intro last hsome
      rw [hlast] at hsome
      cases hsome
    · intro _; rfl

/-- C7 witness: the coalescing branch at a concrete assistant-terminated
provisional history. -/
theorem record_part_appends_and_coalesces_witness :
    (SessionData.record_part
        { committed := [], provisional_messages := [msg_a1], streaming := none }
        (ContentPart.Text "x")).provisional_messages.length
      = ([msg_a1] : List Message).length ∧
    (SessionData.record_part
        { committed := [], provisional_messages := [msg_a1], streaming := none }
        (ContentPart.Text "x")).provisional_messages
      = ([msg_a1] : List Message).dropLast ++
        [{ role := msg_a1.role, content := msg_a1.content ++ [ContentPart.Text "x"] }] :=
  (record_part_appends_and_coalesces
      { committed := [], provisional_messages := [msg_a1], streaming := none }
      (ContentPart.Text "x")).2.2.1 msg_a1 (by decide) (by decide)

/-! ## Empty prompt (C6) -/

/-- C6 counterexample: a turn whose user-role messages are all blank but whose
assembled prompt text is not empty — two blank user messages join to a bare
newline — so the session actor prompts the agent instead of completing the
turn without agent traffic.  The claim as stated is therefore false. -/
theorem empty_prompt_counterexample :
    (([blank_user, blank_user].filter (fun m => m.role = ROLE_USER)).all
        (fun m => m.text == "") = true) ∧
    prompt_text [blank_user, blank_user] = "\n" ∧
    session_turn [blank_user, blank_user] [] ≠ TurnOutcome.completedWithoutAgent := by
  decide

/-- C6 (amended; see the counterexample above): for every incoming turn with
at most one user-role message, all of whose user-role messages are blank —
equivalently, whose assembled prompt text is empty — the session actor
completes the turn with zero traffic to the agent and an immediate completion
to the history actor. -/
theorem blank_prompt_skips_agent (messages : List Message)
    (events : List AgentTurnEvent)
    (hall : ∀ m ∈ messages, m.role = ROLE_USER → m.text = "")
    (hlen : (messages.filter (fun m => m.role = ROLE_USER)).length ≤ 1) :
    session_turn messages events = TurnOutcome.completedWithoutAgent := by
  have hpt : prompt_text messages = "" := by
    unfold prompt_text
    cases hl : messages.filter (fun m => m.role = ROLE_USER) with
    | nil => rfl
    | cons a t =>
      cases t with
      | nil =>
        have hmem : a ∈ messages.filter (fun m => m.role = ROLE_USER) := by
          rw [hl]; exact List.mem_cons_self a []
        have hmf := List.mem_filter.mp hmem
        have hrole : a.role = ROLE_USER := of_decide_eq_true hmf.2
        have htext : a.text = "" := hall a hmf.1 hrole
        simp only [List.map_cons, List.map_nil]
        rw [show String.intercalate "\n" [a.text] = a.text from rfl, htext]
      | cons b t2 =>
        rw [hl] at hlen
        simp at hlen
  unfold session_turn
  rw [hpt]
  simp

/-- C6 witness: a single blank user message skips the agent. -/
theorem blank_prompt_skips_agent_witness :
    session_turn [blank_user] [] = TurnOutcome.completedWithoutAgent :=
  blank_prompt_skips_agent [blank_user] [] (by decide) (by decide)

/-! ## Permission bridging (C5) -/

/-- C5 (confirmed; `has_just_tool_result` spec-modelled): with the internal
tool available, when the next editor request is a non-cancelled match whose
first new message is the tool-result for the requested tool-call id, the
session actor answers the agent with the first offered `AllowOnce` option —
and with `Cancelled` when no such option is offered; when the next request is
a cancelled match or its first new message is not that tool-result, it answers
`Cancelled`. -/
theorem permission_bridging_decision
    (options : List PermissionOption) (tool_call_id : String)
    (next : SessionRequest) (first : Message) (rest : List Message)
    (hmsg : next.messages = first :: rest) :
    (next.canceled = false → first.has_just_tool_result tool_call_id = true →
      (∀ o, options.find? (fun o => o.kind == PermissionOptionKind.allowOnce)
          = some o →
        o.kind = PermissionOptionKind.allowOnce ∧
        permission_decision true options tool_call_id (some next)
          = some (RequestPermissionOutcome.selected o.option_id)) ∧
      (options.find? (fun o => o.kind == PermissionOptionKind.allowOnce) = none →
        permission_decision true options tool_call_id (some next)
          = some RequestPermissionOutcome.cancelled)) ∧
    ((next.canceled = true ∨ first.has_just_tool_result tool_call_id = false) →
      permission_decision true options tool_call_id (some next)
        = some RequestPermissionOutcome.cancelled) := by
  constructor
  · intro hc htr
    have hcond : (next.canceled || !(first.has_just_tool_result tool_call_id))
        = false := by
      rw [hc, htr]; rfl
    constructor
    · intro o hfind
      have hkind := List.find?_some hfind
      refine ⟨by simpa using hkind, ?_⟩
      simp [permission_decision, hmsg, hcond, hfind]
    · intro hfind
      simp [permission_decision, hmsg, hcond, hfind]
  · intro hor
    have hcond : (next.canceled || !(first.has_just_tool_result tool_call_id))
        = true := by
      rcases hor with h | h
      · simp [h]
      · simp [h]
    simp [permission_decision, hmsg, hcond]

/-- C5 witness: a concrete approval with one `AllowOnce` option offered. -/
theorem permission_bridging_decision_witness :
    (({ option_id := "a", kind := PermissionOptionKind.allowOnce } :
        PermissionOption).kind = PermissionOptionKind.allowOnce) ∧
    permission_decision true
      [{ option_id := "a", kind := PermissionOptionKind.allowOnce }] "t"
      (some { messages :=
                [{ role := "user",
                   content := [ContentPart.ToolResult "t" Json.null] }],
              canceled := false, has_internal_tool := true })
      = some (RequestPermissionOutcome.selected "a") :=
  ((permission_bridging_decision
      [{ option_id := "a", kind := PermissionOptionKind.allowOnce }] "t"
      { messages :=
          [{ role := "user", content := [ContentPart.ToolResult "t" Json.null] }],
        canceled := false, has_internal_tool := true }
      { role := "user", content := [ContentPart.ToolResult "t" Json.null] }
      [] rfl).1 rfl (by decide)).1
    { option_id := "a", kind := PermissionOptionKind.allowOnce } (by decide)

/-! ## Cancellation flow (C3) -/

theorem run_turn_loop_canceled_sends_cancel :
    ∀ (events : List AgentTurnEvent) (parts : List String) (r : TurnLoopResult),
    run_turn_loop events parts = some r → r.canceled = true →
    r.sentSessionCancel = true := by
  intro events
  induction events with
  | nil => intro parts r h; cases h
  | cons e rest ih =>
    intro parts r h hc
    cases e with
    | cancelFired =>
      simp only [run_turn_loop] at h
      cases h
      rfl
    | stopReason =>
      simp only [run_turn_loop] at h
      cases h
      cases hc
    | chunk t => exact ih _ r h hc
    | otherMessage => exact ih _ r h hc

theorem drain_until_stop_ends_at_stop :
    ∀ (updates : List AgentTurnEvent),
    AgentTurnEvent.stopReason ∈ updates →
    ∃ pre, drain_until_stop updates = pre ++ [AgentTurnEvent.stopReason] := by
  intro updates h
  induction updates with
  | nil => cases h
  | cons e rest ih =>
    cases e with
    | stopReason => exact ⟨[], rfl⟩
    | chunk t =>
      rcases List.mem_cons.mp h with he | ht
      · cases he
      · rcases ih ht with ⟨pre, hpre⟩
        exact ⟨AgentTurnEvent.chunk t :: pre, by simp [drain_until_stop, hpre]⟩
    | otherMessage =>
      rcases List.mem_cons.mp h with he | ht
      · cases he
      · rcases ih ht with ⟨pre, hpre⟩
        exact ⟨AgentTurnEvent.otherMessage :: pre, by simp [drain_until_stop, hpre]⟩
    | cancelFired =>
      rcases List.mem_cons.mp h with he | ht
      · cases he
      · rcases ih ht with ⟨pre, hpre⟩
        exact ⟨AgentTurnEvent.cancelFired :: pre, by simp [drain_until_stop, hpre]⟩

theorem findIdx?_isSome_of_streaming (sessions : List SessionData) (rid : Nat)
    (h : ∃ s ∈ sessions, s.streaming = some rid) :
    (sessions.findIdx? (fun s => s.streaming == some rid)).isSome = true := by
  rcases h with ⟨s, hmem, hs⟩
  rw [List.findIdx?_isSome]
  exact List.any_eq_true.mpr ⟨s, hmem, by simp [hs]⟩

/-- C3 (confirmed; the drain step spec-modelled): when the editor cancels the
request id of a streaming turn, the cancel handler finds the session and fires
its cancellation; a turn loop whose race is won by the cancellation sends
`session/cancel` to the agent; the streaming task answers the outstanding
editor request with JSON-RPC error -32800; and draining consumes the agent's
output up to the stop reason. -/
theorem cancel_flow (sessions : List SessionData) (rid : Nat)
    (events : List AgentTurnEvent) (r : TurnLoopResult)
    (updates : List AgentTurnEvent)
    (hstream : ∃ s ∈ sessions, s.streaming = some rid)
    (hloop : run_turn_loop events [] = some r)
    (hcanc : r.canceled = true)
    (hstop : AgentTurnEvent.stopReason ∈ updates) :
    (handle_vscode_cancel sessions rid).2 = true ∧
    r.sentSessionCancel = true ∧
    stream_response_step StreamOutcome.cancelled
      = StreamAction.respondWithError (-32800) ∧
    (drain_until_stop updates).getLast? = some AgentTurnEvent.stopReason := by
  refine ⟨?_, run_turn_loop_canceled_sends_cancel events [] r hloop hcanc, rfl, ?_⟩
  · unfold handle_vscode_cancel
    have hsome := findIdx?_isSome_of_streaming sessions rid hstream
    cases hfind : sessions.findIdx? (fun s => s.streaming == some rid) with
    | none => rw [hfind] at hsome; cases hsome
    | some i => rfl
  · rcases drain_until_stop_ends_at_stop updates hstop with ⟨pre, hpre⟩
    rw [hpre]
    exact List.getLast?_concat _

/-- C3 witness: a concrete streaming session cancelled mid-turn. -/
theorem cancel_flow_witness :
    (handle_vscode_cancel
      [{ committed := [], provisional_messages := [], streaming := some 7 }] 7).2
      = true ∧
    ({ canceled := true, partsSent := [], sentSessionCancel := true,
       sentCompleteToHistory := false } : TurnLoopResult).sentSessionCancel = true ∧
    stream_response_step StreamOutcome.cancelled
      = StreamAction.respondWithError (-32800) ∧
    (drain_until_stop [AgentTurnEvent.chunk "x", AgentTurnEvent.stopReason]).getLast?
      = some AgentTurnEvent.stopReason :=
  cancel_flow
    [{ committed := [], provisional_messages := [], streaming := some 7 }] 7
    [AgentTurnEvent.cancelFired]
    { canceled := true, partsSent := [], sentSessionCancel := true,
      sentCompleteToHistory := false }
    [AgentTurnEvent.chunk "x", AgentTurnEvent.stopReason]
    ⟨{ committed := [], provisional_messages := [], streaming := some 7 },
      by decide, rfl⟩
    rfl rfl (by decide)

/-! ## Cargo binary resolution (C9) -/

/-- C9 (confirmed): resolving a cargo distribution uses an explicitly given
binary name whenever present; otherwise it uses the single binary target
reported by crates.io when there is exactly one; and with zero or several
targets it fails with an error and performs no installation. -/
theorem cargo_binary_resolution (crate_name version : String)
    (binary : Option String) (bin_names : List String)
    (cached : String → Bool) :
    (∀ name, binary = some name →
      (resolve_cargo crate_name version binary bin_names cached).1
        = Except.ok name) ∧
    (binary = none → ∀ b, bin_names = [b] →
      (resolve_cargo crate_name version binary bin_names cached).1
        = Except.ok b) ∧
    (binary = none → (bin_names = [] ∨ 2 ≤ bin_names.length) →
      (∃ e, (resolve_cargo crate_name version binary bin_names cached).1
        = Except.error e) ∧
      (resolve_cargo crate_name version binary bin_names cached).2 = []) := by
  refine ⟨?_, ?_, ?_⟩
  · intro name hb
    subst hb
    simp only [resolve_cargo, resolve_cargo_binary_name]
    by_cases hc : cached name <;> simp [hc]
  · intro hb b hbn
    subst hb
    subst hbn
    simp only [resolve_cargo, resolve_cargo_binary_name]
    by_cases hc : cached b <;> simp [hc]
  · intro hb hzero
    subst hb
    rcases hzero with hnil | htwo
    · subst hnil
      exact ⟨⟨"crate has no binary targets", rfl⟩, rfl⟩
    · have hne : bin_names.isEmpty = false := by
        cases bin_names with
        | nil => simp at htwo
        | cons a t => rfl
      have hlen : bin_names.length ≠ 1 := by omega
      constructor
      · refine ⟨"crate has multiple binaries, please specify one explicitly", ?_⟩
        simp [resolve_cargo, resolve_cargo_binary_name, hne, hlen]
      · simp [resolve_cargo, resolve_cargo_binary_name, hne, hlen]

/-- C9 witness: two reported targets and no explicit binary fail without
installing. -/
theorem cargo_binary_resolution_witness :
    (∃ e, (resolve_cargo "demo" "1.0.0" none ["x", "y"] (fun _ => false)).1
      = Except.error e) ∧
    (resolve_cargo "demo" "1.0.0" none ["x", "y"] (fun _ => false)).2 = [] :=
  (cargo_binary_resolution "demo" "1.0.0" none ["x", "y"] (fun _ => false)).2.2
    rfl (Or.inr (by decide))

/-! ## Component-source round trip (C8) -/

theorem parseStringListAux_map (l : List String) :
    parseStringListAux (l.map Json.str) = some l := by
  induction l with
  | nil => rfl
  | cons a t ih => simp [parseStringListAux, ih]

theorem parseStringList_ser (l : List String) :
    parseStringList (serStringList l) = some l := by
  simp [parseStringList, serStringList, parseStringListAux_map]

theorem parseStringMapAux_map (m : List (String × String)) :
    parseStringMapAux (m.map (fun p => (p.1, Json.str p.2))) = some m := by
  induction m with
  | nil => rfl
  | cons a t ih =>
    obtain ⟨k, v⟩ := a
    simp [parseStringMapAux, ih]

theorem parseStringMap_ser (m : List (String × String)) :
    parseStringMap (serStringMap m) = some m := by
  simp [parseStringMap, serStringMap, parseStringMapAux_map]

theorem parseStringListAux_map_cons (a : String) (t : List String) :
    parseStringListAux (Json.str a :: t.map Json.str) = some (a :: t) := by
  simp [parseStringListAux, parseStringListAux_map]

theorem parseStringMapAux_map_cons (k v : String) (t : List (String × String)) :
    parseStringMapAux ((k, Json.str v) :: t.map (fun p => (p.1, Json.str p.2)))
      = some ((k, v) :: t) := by
  simp [parseStringMapAux, parseStringMapAux_map]

theorem httpHeader_roundtrip (h : HttpHeader) :
    HttpHeader.fromJson h.toJson = some h := by
  obtain ⟨n, v⟩ := h
  simp [HttpHeader.toJson, HttpHeader.fromJson, reqStr, getField, parseString]

theorem parseHeadersAux_map (hs : List HttpHeader) :
    parseHeadersAux (hs.map HttpHeader.toJson) = some hs := by
  induction hs with
  | nil => rfl
  | cons a t ih => simp [parseHeadersAux, httpHeader_roundtrip, ih]

theorem localDistribution_roundtrip (d : LocalDistribution) :
    LocalDistribution.fromJson d.toJson = some d := by
  obtain ⟨command, args, name, env⟩ := d
  cases args <;> cases name <;> cases env <;>
    simp [LocalDistribution.toJson, LocalDistribution.fromJson, reqStr,
      optStrList, optStr, optStrMap, getField, parseString, serStringList,
      parseStringList, parseStringListAux_map, parseStringListAux_map_cons,
      serStringMap, parseStringMap, parseStringMapAux_map,
      parseStringMapAux_map_cons]

theorem npxDistribution_roundtrip (d : NpxDistribution) :
    NpxDistribution.fromJson d.toJson = some d := by
  obtain ⟨package, args, env⟩ := d
  cases args <;> cases env <;>
    simp [NpxDistribution.toJson, NpxDistribution.fromJson, reqStr,
      optStrList, optStrMap, getField, parseString, serStringList,
      parseStringList, parseStringListAux_map, parseStringListAux_map_cons,
      serStringMap, parseStringMap, parseStringMapAux_map,
      parseStringMapAux_map_cons]

theorem pipxDistribution_roundtrip (d : PipxDistribution) :
    PipxDistribution.fromJson d.toJson = some d := by
  obtain ⟨package, args⟩ := d
  cases args <;>
    simp [PipxDistribution.toJson, PipxDistribution.fromJson, reqStr,
      optStrList, getField, parseString, serStringList, parseStringList,
      parseStringListAux_map, parseStringListAux_map_cons]

theorem cargoDistribution_roundtrip (d : CargoDistribution) :
    CargoDistribution.fromJson d.toJson = some d := by
  obtain ⟨crate_name, version, binary, args⟩ := d
  cases version <;> cases binary <;> cases args <;>
    simp [CargoDistribution.toJson, CargoDistribution.fromJson, reqStr,
      optStrList, optStr, getField, parseString, serStringList,
      parseStringList, parseStringListAux_map, parseStringListAux_map_cons]

theorem binaryDistribution_roundtrip (d : BinaryDistribution) :
    BinaryDistribution.fromJson d.toJson = some d := by
  obtain ⟨archive, cmd, args⟩ := d
  cases args <;>
    simp [BinaryDistribution.toJson, BinaryDistribution.fromJson, reqStr,
      optStrList, getField, parseString, serStringList, parseStringList,
      parseStringListAux_map, parseStringListAux_map_cons]

theorem parseBinaryMapAux_map (m : List (String × BinaryDistribution)) :
    parseBinaryMapAux (m.map (fun p => (p.1, p.2.toJson))) = some m := by
  induction m with
  | nil => rfl
  | cons a t ih =>
    obtain ⟨k, b⟩ := a
    simp [parseBinaryMapAux, binaryDistribution_roundtrip, ih]

theorem httpDistribution_roundtrip (d : HttpDistribution) :
    HttpDistribution.fromJson d.toJson = some d := by
  obtain ⟨name, url, headers⟩ := d
  simp [HttpDistribution.toJson, HttpDistribution.fromJson, reqStr, getField,
    parseString, parseHeadersAux_map]

/-- C8 (confirmed): serialising any `ComponentSource` to JSON and parsing the
result back yields the original value, including values with empty list or
map fields (skipped on serialisation, defaulted on parse) and absent optional
fields. -/
theorem component_source_roundtrip (s : ComponentSource) :
    ComponentSource.fromJson s.toJson = some s := by
  cases s with
  | Builtin name =>
    simp [ComponentSource.toJson, ComponentSource.fromJson, parseString]
  | Registry id =>
    simp [ComponentSource.toJson, ComponentSource.fromJson, parseString]
  | Url url =>
    simp [ComponentSource.toJson, ComponentSource.fromJson, parseString]
  | Local d =>
    simp [ComponentSource.toJson, ComponentSource.fromJson,
      localDistribution_roundtrip]
  | Npx d =>
    simp [ComponentSource.toJson, ComponentSource.fromJson,
      npxDistribution_roundtrip]
  | Pipx d =>
    simp [ComponentSource.toJson, ComponentSource.fromJson,
      pipxDistribution_roundtrip]
  | Cargo d =>
    simp [ComponentSource.toJson, ComponentSource.fromJson,
      cargoDistribution_roundtrip]
  | Binary m =>
    simp [ComponentSource.toJson, ComponentSource.fromJson,
      parseBinaryMapAux_map]
  | Http d =>
    simp [ComponentSource.toJson, ComponentSource.fromJson,
      httpDistribution_roundtrip]
  | Sse d =>
    simp [ComponentSource.toJson, ComponentSource.fromJson,
      httpDistribution_roundtrip]
